import Mathlib

/-!
Verification of the reconciliation engine of the Aiven Monitor Manager for
OpenSearch against its natural-language specification.

The Python sources are shallowly embedded:
* JSON values (Python dicts/lists as produced by `json.loads`) become the
  inductive type `Json`; Python dict operations (`d[k]`, `del d[k]`,
  `d[k] = v`) become `lookupKey` / `eraseKey` / `setKey` over association
  lists (dict keys are unique, insertion order is preserved).
* functions that can raise an uncaught exception or call `helper.error`
  (which exits the process) return `Except`;
* the interactive confirmation gate (`helper.confirm`) is modelled by an
  operator oracle `answers : String → Bool` giving the decision for each
  prompted item (the `--force` flag and the per-event "all" latch are the
  constant-true oracles);
* external collaborators (the DeepDiff library, the OpenSearch transport's
  `create_monitor`, the random placeholder-id generator) are parameters.
-/

namespace MonitorManager

/-- JSON values as manipulated by the Python sources (`json.loads` output).
Objects are association lists preserving insertion order, with unique keys. -/
inductive Json where
  | null
  | bool (b : Bool)
  | num (n : Int)
  | str (s : String)
  | arr (elems : List Json)
  | obj (fields : List (String × Json))

/-- Python `d[key]` on a dict: first (only) binding of `key`. -/
def lookupKey : List (String × Json) → String → Option Json
  | [], _ => none
  | (k, v) :: rest, key => if k = key then some v else lookupKey rest key

/-- Python `del d[key]`'s effect on the bindings (keys are unique, so
removing every binding of `key` agrees with removing the one binding). -/
def eraseKey (kvs : List (String × Json)) (key : String) : List (String × Json) :=
  kvs.filter (fun kv => kv.1 ≠ key)

/-- Python `d[key] = v`: replace in place when present, append when absent. -/
def setKey : List (String × Json) → String → Json → List (String × Json)
  | [], key, v => [(key, v)]
  | (k, w) :: rest, key, v =>
    if k = key then (key, v) :: rest else (k, w) :: setKey rest key v

/-- The characters `helper.pathsafe` forbids (helpers.py line 102). -/
def unsafe_chars : List Char := ['\\', '/', ':', '*', '?', '"', '<', '>', '|']

/-- `helper.pathsafe` (helpers.py lines 89-108): reject a nonempty string whose
first character is a space, then reject any string containing a forbidden
character; accept everything else. -/
def pathsafe (s : String) : Bool :=
  if s.data.head? = some ' ' then false
  else s.data.all (fun c => !(unsafe_chars.contains c))

/-- C8 counterexample: the claim says `pathsafe` returns False for every string
whose first character is any whitespace character, tab and newline included;
but `"\tx"` starts with a tab (a whitespace character) and `pathsafe` accepts
it, because the source only compares the first character against a space. -/
theorem c8_counterexample :
    "\tx".data.head? = some '\t' ∧ '\t'.isWhitespace = true ∧ pathsafe "\tx" = true := by
  refine ⟨rfl, by decide, by decide⟩

/-- C8 (amended): `pathsafe` returns False exactly for the strings that contain
one of the nine forbidden characters, or whose first character is a space
(U+0020) specifically; strings starting with other whitespace such as tab or
newline are not rejected by the leading-whitespace test. -/
theorem c8_pathsafe_iff (s : String) :
    pathsafe s = false ↔ s.data.head? = some ' ' ∨ ∃ c ∈ s.data, c ∈ unsafe_chars := by
  by_cases h : s.data.head? = some ' '
  · simp [pathsafe, h]
  · simp [pathsafe, h, List.all_eq_true]

/-! ## `helper.prepare_for_create` (helpers.py lines 125-164)

The Python routine mutates the monitor's inner `monitor` dict in place:
it deletes the four volatile top-level keys (each `del` wrapped in its own
`try/except KeyError`), then runs two loops over `content["triggers"]`, each
wrapped as a whole in one `try/except KeyError`: a `KeyError` anywhere in a
loop stops that loop, keeping the deletions already made; a `TypeError`
(subscripting or deleting on a non-dict, iterating a non-list) is not caught
and crashes the process, modelled as `Except.error`. -/

/-- Outcome of one exception-scoped block: completed, stopped early by a
caught `KeyError` (keeping prior in-place mutations), or a fatal
uncaught `TypeError`. -/
inductive LoopRes (α : Type) where
  | done (a : α)
  | keyAbort (a : α)
  | typeErr

/-- The inner loop `for action in trigger[kind]["actions"]: del action["id"]`:
processes actions in order, aborting at the first action without an `"id"`
key (prior deletions kept), fatal on a non-dict action. -/
def delActionIds : List Json → LoopRes (List Json)
  | [] => .done []
  | .obj kvs :: rest =>
    if (lookupKey kvs "id").isSome then
      match delActionIds rest with
      | .done rest' => .done (.obj (eraseKey kvs "id") :: rest')
      | .keyAbort rest' => .keyAbort (.obj (eraseKey kvs "id") :: rest')
      | .typeErr => .typeErr
    else .keyAbort (.obj kvs :: rest)
  | _ :: _ => .typeErr

/-- One trigger's processing inside the loop body:
`del trigger[kind]["id"]` followed by the per-action id deletions.
A `KeyError` leaves the partial in-place mutations made so far. -/
def stepTrigger (kind : String) (t : Json) : LoopRes Json :=
  match t with
  | .obj kvs =>
    match lookupKey kvs kind with
    | none => .keyAbort t
    | some (.obj ikvs) =>
      if (lookupKey ikvs "id").isSome then
        match lookupKey (eraseKey ikvs "id") "actions" with
        | none => .keyAbort (.obj (setKey kvs kind (.obj (eraseKey ikvs "id"))))
        | some (.arr as) =>
          match delActionIds as with
          | .done as' =>
            .done (.obj (setKey kvs kind (.obj (setKey (eraseKey ikvs "id") "actions" (.arr as')))))
          | .keyAbort as' =>
            .keyAbort (.obj (setKey kvs kind (.obj (setKey (eraseKey ikvs "id") "actions" (.arr as')))))
          | .typeErr => .typeErr
        | some _ => .typeErr
      else .keyAbort t
    | some _ => .typeErr
  | _ => .typeErr

/-- The loop `for trigger in content["triggers"]: ...` for one trigger kind:
triggers are processed in order; the first `KeyError` stops the loop,
keeping every deletion already performed. -/
def stripTriggers (kind : String) : List Json → LoopRes (List Json)
  | [] => .done []
  | t :: rest =>
    match stepTrigger kind t with
    | .done t' =>
      match stripTriggers kind rest with
      | .done rest' => .done (t' :: rest')
      | .keyAbort rest' => .keyAbort (t' :: rest')
      | .typeErr => .typeErr
    | .keyAbort t' => .keyAbort (t' :: rest)
    | .typeErr => .typeErr

/-- One whole `try: for trigger in content["triggers"]: ... except KeyError:
pass` block: a missing `"triggers"` key or a loop-level `KeyError` is caught
(the content keeps the deletions made so far); a non-array `"triggers"` value
is fatal. -/
def stripTriggersOf (kind : String) (c : Json) : Except Unit Json :=
  match c with
  | .obj kvs =>
    match lookupKey kvs "triggers" with
    | none => .ok c
    | some (.arr ts) =>
      match stripTriggers kind ts with
      | .done ts' => .ok (.obj (setKey kvs "triggers" (.arr ts')))
      | .keyAbort ts' => .ok (.obj (setKey kvs "triggers" (.arr ts')))
      | .typeErr => .error ()
    | some _ => .error ()
  | _ => .error ()

/-- The keys removed by the `remove_keys` loop (helpers.py line 143). -/
def remove_keys : List String := ["enabled_time", "last_update_time", "data_sources", "owner"]

/-- The `for key in remove_keys: try: del content[key] except KeyError` loop. -/
def eraseKeys (kvs : List (String × Json)) (ks : List String) : List (String × Json) :=
  ks.foldl eraseKey kvs

/-- The volatile-field stripping body of `prepare_for_create`: the
`remove_keys` deletions followed by the `document_level_trigger` and the
`query_level_trigger` id-deletion blocks, applied to the inner content dict. -/
def stripContent (c : Json) : Except Unit Json :=
  match c with
  | .obj kvs =>
    (stripTriggersOf "document_level_trigger" (.obj (eraseKeys kvs remove_keys))).bind
      (stripTriggersOf "query_level_trigger")
  | _ => .error ()

/-- `helper.prepare_for_create` (helpers.py lines 125-164): unwrap
`monitor["monitor"]`, abort via `helper.error` when the name fails
`pathsafe`, then strip the volatile fields and return the bare content. -/
def prepare_for_create (monitor : Json) : Except Unit Json :=
  match monitor with
  | .obj kvs =>
    match lookupKey kvs "monitor" with
    | some (.obj ckvs) =>
      match lookupKey ckvs "name" with
      | some (.str nm) =>
        if pathsafe nm then stripContent (.obj ckvs) else .error ()
      | _ => .error ()
    | some _ => .error ()
    | none => .error ()
  | _ => .error ()

theorem lookupKey_eraseKey_self (kvs : List (String × Json)) (k : String) :
    lookupKey (eraseKey kvs k) k = none := by
  induction kvs with
  | nil => rfl
  | cons kv rest ih =>
    by_cases h : kv.1 = k
    · simpa [eraseKey, List.filter, h] using ih
    · simpa [eraseKey, List.filter, h, lookupKey] using ih

theorem lookupKey_eraseKey_none (kvs : List (String × Json)) (k k' : String)
    (h : lookupKey kvs k = none) : lookupKey (eraseKey kvs k') k = none := by
  induction kvs with
  | nil => rfl
  | cons kv rest ih =>
    simp only [lookupKey] at h
    by_cases h1 : kv.1 = k
    · simp [h1] at h
    · by_cases h2 : kv.1 = k'
      · simpa [eraseKey, List.filter, h2] using ih (by simpa [h1] using h)
      · simpa [eraseKey, List.filter, h2, lookupKey, h1] using ih (by simpa [h1] using h)

theorem eraseKey_of_lookup_none (kvs : List (String × Json)) (k : String)
    (h : lookupKey kvs k = none) : eraseKey kvs k = kvs := by
  induction kvs with
  | nil => rfl
  | cons kv rest ih =>
    simp only [lookupKey] at h
    by_cases h1 : kv.1 = k
    · simp [h1] at h
    · simpa [eraseKey, List.filter, h1] using ih (by simpa [h1] using h)

theorem eraseKeys_lookup_none_mono (ks : List String) (kvs : List (String × Json)) (k : String)
    (h : lookupKey kvs k = none) : lookupKey (eraseKeys kvs ks) k = none := by
  induction ks generalizing kvs with
  | nil => exact h
  | cons a rest ih => exact ih _ (lookupKey_eraseKey_none _ _ _ h)

theorem eraseKeys_lookup_none (ks : List String) (kvs : List (String × Json)) (k : String)
    (h : k ∈ ks) : lookupKey (eraseKeys kvs ks) k = none := by
  induction ks generalizing kvs with
  | nil => cases h
  | cons a rest ih =>
    rcases List.mem_cons.mp h with h1 | h1
    · subst h1
      exact eraseKeys_lookup_none_mono rest (eraseKey kvs k) k (lookupKey_eraseKey_self kvs k)
    · exact ih (eraseKey kvs a) h1

theorem eraseKeys_of_lookup_none (ks : List String) (kvs : List (String × Json))
    (h : ∀ k ∈ ks, lookupKey kvs k = none) : eraseKeys kvs ks = kvs := by
  induction ks with
  | nil => rfl
  | cons a rest ih =>
    show eraseKeys (eraseKey kvs a) rest = kvs
    rw [eraseKey_of_lookup_none _ _ (h a (by simp))]
    exact ih fun k hk => h k (by simp [hk])

theorem lookupKey_setKey_self (kvs : List (String × Json)) (k : String) (v : Json) :
    lookupKey (setKey kvs k v) k = some v := by
  induction kvs with
  | nil => simp [setKey, lookupKey]
  | cons kv rest ih =>
    by_cases h : kv.1 = k
    · simp [setKey, h, lookupKey]
    · simpa [setKey, h, lookupKey] using ih

theorem lookupKey_setKey_ne : ∀ (kvs : List (String × Json)) (k k' : String) (v : Json),
    k ≠ k' → lookupKey (setKey kvs k' v) k = lookupKey kvs k
  | [], k, k', v, h => by
    have h' : ¬ (k' = k) := fun hh => h hh.symm
    simp [setKey, lookupKey, h']
  | (a, b) :: rest, k, k', v, h => by
    by_cases h1 : a = k'
    · subst h1
      have h' : ¬ (a = k) := fun hh => h hh.symm
      simp [setKey, lookupKey, h']
    · simp only [setKey, if_neg h1, lookupKey]
      by_cases h2 : a = k
      · simp [h2]
      · simp [h2, lookupKey_setKey_ne rest k k' v h]

theorem setKey_setKey (kvs : List (String × Json)) (k : String) (v w : Json) :
    setKey (setKey kvs k v) k w = setKey kvs k w := by
  induction kvs with
  | nil => simp [setKey]
  | cons kv rest ih =>
    by_cases h : kv.1 = k
    · simp [setKey, h]
    · simpa [setKey, h] using ih

theorem setKey_of_lookup_eq : ∀ (kvs : List (String × Json)) (k : String) (v : Json),
    lookupKey kvs k = some v → setKey kvs k v = kvs
  | [], k, v, h => by simp [lookupKey] at h
  | (a, b) :: rest, k, v, h => by
    by_cases h1 : a = k
    · subst h1
      have hb : b = v := by simpa [lookupKey] using h
      subst hb
      simp [setKey]
    · simp only [lookupKey, if_neg h1] at h
      simp [setKey, h1, setKey_of_lookup_eq rest k v h]

/-- A trigger on which the id-deletion step stops immediately with a caught
`KeyError` and no mutation: either the trigger-kind key is absent, or its
inner dict has no `"id"` key. Every trigger already processed once is in
this state, which is the heart of idempotence. -/
def stuckTrigger (kind : String) (t : Json) : Prop :=
  ∃ kvs, t = .obj kvs ∧
    (lookupKey kvs kind = none ∨
     ∃ ikvs, lookupKey kvs kind = some (.obj ikvs) ∧ lookupKey ikvs "id" = none)

theorem stepTrigger_of_stuck (kind : String) (t : Json) (h : stuckTrigger kind t) :
    stepTrigger kind t = .keyAbort t := by
  obtain ⟨kvs, rfl, h⟩ := h
  rcases h with h | ⟨ikvs, hk, hid⟩
  · simp [stepTrigger, h]
  · simp [stepTrigger, hk, hid]

theorem stuck_of_stepTrigger (kind : String) (t t' : Json)
    (h : stepTrigger kind t = .done t' ∨ stepTrigger kind t = .keyAbort t') :
    stuckTrigger kind t' := by
  rcases t with _ | b | n | s | elems | kvs
  case obj =>
    rcases hk : lookupKey kvs kind with _ | v
    · rw [show stepTrigger kind (.obj kvs) = .keyAbort (.obj kvs) by simp [stepTrigger, hk]] at h
      rcases h with h | h
      · cases h
      · cases h
        exact ⟨kvs, rfl, Or.inl hk⟩
    · rcases v with _ | b | n | s | elems | ikvs
      case obj =>
        rcases hid : lookupKey ikvs "id" with _ | idv
        · rw [show stepTrigger kind (.obj kvs) = .keyAbort (.obj kvs) by
            simp [stepTrigger, hk, hid]] at h
          rcases h with h | h
          · cases h
          · cases h
            exact ⟨kvs, rfl, Or.inr ⟨ikvs, hk, hid⟩⟩
        · rcases ha : lookupKey (eraseKey ikvs "id") "actions" with _ | av
          · rw [show stepTrigger kind (.obj kvs)
                = .keyAbort (.obj (setKey kvs kind (.obj (eraseKey ikvs "id")))) by
              simp [stepTrigger, hk, hid, ha]] at h
            rcases h with h | h
            · cases h
            · cases h
              exact ⟨_, rfl, Or.inr ⟨eraseKey ikvs "id", lookupKey_setKey_self _ _ _,
                lookupKey_eraseKey_self _ _⟩⟩
          · rcases av with _ | b | n | s | as | akvs
            case arr =>
              rcases hd : delActionIds as with as' | as'
              · rw [show stepTrigger kind (.obj kvs) = .done (.obj (setKey kvs kind
                    (.obj (setKey (eraseKey ikvs "id") "actions" (.arr as'))))) by
                  simp [stepTrigger, hk, hid, ha, hd]] at h
                rcases h with h | h
                · cases h
                  refine ⟨_, rfl, Or.inr ⟨_, lookupKey_setKey_self _ _ _, ?_⟩⟩
                  rw [lookupKey_setKey_ne _ _ _ _ (by decide)]
                  exact lookupKey_eraseKey_self _ _
                · cases h
              · rw [show stepTrigger kind (.obj kvs) = .keyAbort (.obj (setKey kvs kind
                    (.obj (setKey (eraseKey ikvs "id") "actions" (.arr as'))))) by
                  simp [stepTrigger, hk, hid, ha, hd]] at h
                rcases h with h | h
                · cases h
                · cases h
                  refine ⟨_, rfl, Or.inr ⟨_, lookupKey_setKey_self _ _ _, ?_⟩⟩
                  rw [lookupKey_setKey_ne _ _ _ _ (by decide)]
                  exact lookupKey_eraseKey_self _ _
              · rw [show stepTrigger kind (.obj kvs) = .typeErr by
                  simp [stepTrigger, hk, hid, ha, hd]] at h
                rcases h with h | h <;> cases h
            all_goals
              rw [show stepTrigger kind (.obj kvs) = .typeErr by simp [stepTrigger, hk, hid, ha]] at h
            all_goals rcases h with h | h <;> cases h
      all_goals
        rw [show stepTrigger kind (.obj kvs) = .typeErr by simp [stepTrigger, hk]] at h
      all_goals rcases h with h | h <;> cases h
  all_goals simp [stepTrigger] at h

theorem stuck_of_stepTrigger_other (kind kind' : String) (t u : Json) (hne : kind ≠ kind')
    (h : stepTrigger kind' t = .done u ∨ stepTrigger kind' t = .keyAbort u)
    (hs : stuckTrigger kind t) : stuckTrigger kind u := by
  obtain ⟨kvs, rfl, hd⟩ := hs
  rcases hk : lookupKey kvs kind' with _ | v
  · rw [show stepTrigger kind' (.obj kvs) = .keyAbort (.obj kvs) by simp [stepTrigger, hk]] at h
    rcases h with h | h
    · cases h
    · cases h
      exact ⟨kvs, rfl, hd⟩
  · rcases v with _ | b | n | s | elems | ikvs
    case obj =>
      rcases hid : lookupKey ikvs "id" with _ | idv
      · rw [show stepTrigger kind' (.obj kvs) = .keyAbort (.obj kvs) by
          simp [stepTrigger, hk, hid]] at h
        rcases h with h | h
        · cases h
        · cases h
          exact ⟨kvs, rfl, hd⟩
      · rcases ha : lookupKey (eraseKey ikvs "id") "actions" with _ | av
        · rw [show stepTrigger kind' (.obj kvs)
              = .keyAbort (.obj (setKey kvs kind' (.obj (eraseKey ikvs "id")))) by
            simp [stepTrigger, hk, hid, ha]] at h
          rcases h with h | h
          · cases h
          · cases h
            exact ⟨_, rfl, by rwa [lookupKey_setKey_ne _ _ _ _ hne]⟩
        · rcases av with _ | b | n | s | as | akvs
          case arr =>
            rcases hdel : delActionIds as with as' | as'
            · rw [show stepTrigger kind' (.obj kvs) = .done (.obj (setKey kvs kind'
                  (.obj (setKey (eraseKey ikvs "id") "actions" (.arr as'))))) by
                simp [stepTrigger, hk, hid, ha, hdel]] at h
              rcases h with h | h
              · cases h
                exact ⟨_, rfl, by rwa [lookupKey_setKey_ne _ _ _ _ hne]⟩
              · cases h
            · rw [show stepTrigger kind' (.obj kvs) = .keyAbort (.obj (setKey kvs kind'
                  (.obj (setKey (eraseKey ikvs "id") "actions" (.arr as'))))) by
                simp [stepTrigger, hk, hid, ha, hdel]] at h
              rcases h with h | h
              · cases h
              · cases h
                exact ⟨_, rfl, by rwa [lookupKey_setKey_ne _ _ _ _ hne]⟩
            · simp [stepTrigger, hk, hid, ha, hdel] at h
          all_goals simp [stepTrigger, hk, hid, ha] at h
    all_goals simp [stepTrigger, hk] at h

/-- Head trigger (if any) is in the stuck state: the trigger loop stops there
at once with no mutation. -/
def headStuck (kind : String) : List Json → Prop
  | [] => True
  | t :: _ => stuckTrigger kind t

theorem headStuck_of_stripTriggers (kind : String) (ts ts' : List Json)
    (h : stripTriggers kind ts = .done ts' ∨ stripTriggers kind ts = .keyAbort ts') :
    headStuck kind ts' := by
  cases ts with
  | nil =>
    rcases h with h | h
    · cases h
      exact trivial
    · cases h
  | cons t rest =>
    unfold stripTriggers at h
    rcases hst : stepTrigger kind t with t1 | t1
    · rw [hst] at h
      rcases hsr : stripTriggers kind rest with rest1 | rest1
      · rw [hsr] at h
        rcases h with h | h
        · cases h
          exact stuck_of_stepTrigger kind t t1 (Or.inl hst)
        · cases h
      · rw [hsr] at h
        rcases h with h | h
        · cases h
        · cases h
          exact stuck_of_stepTrigger kind t t1 (Or.inl hst)
      · rw [hsr] at h
        rcases h with h | h <;> cases h
    · rw [hst] at h
      rcases h with h | h
      · cases h
      · cases h
        exact stuck_of_stepTrigger kind t t1 (Or.inr hst)
    · rw [hst] at h
      rcases h with h | h <;> cases h

theorem stripTriggers_of_headStuck (kind : String) (ts : List Json) (h : headStuck kind ts) :
    stripTriggers kind ts = .done ts ∨ stripTriggers kind ts = .keyAbort ts := by
  cases ts with
  | nil => exact Or.inl rfl
  | cons t rest =>
    right
    unfold stripTriggers
    rw [stepTrigger_of_stuck kind t h]

theorem headStuck_other (kind kind' : String) (ts ts2 : List Json) (hne : kind ≠ kind')
    (h : stripTriggers kind' ts = .done ts2 ∨ stripTriggers kind' ts = .keyAbort ts2)
    (hs : headStuck kind ts) : headStuck kind ts2 := by
  cases ts with
  | nil =>
    rcases h with h | h
    · cases h
      exact trivial
    · cases h
  | cons t rest =>
    unfold stripTriggers at h
    rcases hst : stepTrigger kind' t with t1 | t1
    · rw [hst] at h
      rcases hsr : stripTriggers kind' rest with rest1 | rest1
      · rw [hsr] at h
        rcases h with h | h
        · cases h
          exact stuck_of_stepTrigger_other kind kind' t t1 hne (Or.inl hst) hs
        · cases h
      · rw [hsr] at h
        rcases h with h | h
        · cases h
        · cases h
          exact stuck_of_stepTrigger_other kind kind' t t1 hne (Or.inl hst) hs
      · rw [hsr] at h
        rcases h with h | h <;> cases h
    · rw [hst] at h
      rcases h with h | h
      · cases h
      · cases h
        exact stuck_of_stepTrigger_other kind kind' t t1 hne (Or.inr hst) hs
    · rw [hst] at h
      rcases h with h | h <;> cases h

/-- A content dict on which a whole trigger-stripping block is a no-op:
the `"triggers"` key is absent, or its array's head trigger is stuck. -/
def contStuck (kind : String) (c : Json) : Prop :=
  ∃ kvs, c = .obj kvs ∧
    (lookupKey kvs "triggers" = none ∨
     ∃ ts, lookupKey kvs "triggers" = some (.arr ts) ∧ headStuck kind ts)

theorem contStuck_of_stripTriggersOf (kind : String) (c c' : Json)
    (h : stripTriggersOf kind c = .ok c') : contStuck kind c' := by
  rcases c with _ | b | n | s | elems | kvs
  case obj =>
    rcases hk : lookupKey kvs "triggers" with _ | v
    · rw [show stripTriggersOf kind (.obj kvs) = .ok (.obj kvs) by
        simp [stripTriggersOf, hk]] at h
      cases h
      exact ⟨kvs, rfl, Or.inl hk⟩
    · rcases v with _ | b | n | s | ts | okvs
      case arr =>
        rcases hst : stripTriggers kind ts with ts' | ts'
        · rw [show stripTriggersOf kind (.obj kvs) = .ok (.obj (setKey kvs "triggers" (.arr ts'))) by
            simp [stripTriggersOf, hk, hst]] at h
          cases h
          exact ⟨_, rfl, Or.inr ⟨ts', lookupKey_setKey_self _ _ _,
            headStuck_of_stripTriggers kind ts ts' (Or.inl hst)⟩⟩
        · rw [show stripTriggersOf kind (.obj kvs) = .ok (.obj (setKey kvs "triggers" (.arr ts'))) by
            simp [stripTriggersOf, hk, hst]] at h
          cases h
          exact ⟨_, rfl, Or.inr ⟨ts', lookupKey_setKey_self _ _ _,
            headStuck_of_stripTriggers kind ts ts' (Or.inr hst)⟩⟩
        · simp [stripTriggersOf, hk, hst] at h
      all_goals simp [stripTriggersOf, hk] at h
  all_goals simp [stripTriggersOf] at h

theorem stripTriggersOf_of_contStuck (kind : String) (c : Json) (h : contStuck kind c) :
    stripTriggersOf kind c = .ok c := by
  obtain ⟨kvs, rfl, hd⟩ := h
  rcases hd with hk | ⟨ts, hk, hs⟩
  · simp [stripTriggersOf, hk]
  · rcases stripTriggers_of_headStuck kind ts hs with hst | hst <;>
      simp [stripTriggersOf, hk, hst, setKey_of_lookup_eq kvs "triggers" (.arr ts) hk]

theorem contStuck_other (kind kind' : String) (c c' : Json) (hne : kind ≠ kind')
    (h : stripTriggersOf kind' c = .ok c') (hs : contStuck kind c) : contStuck kind c' := by
  obtain ⟨kvs, rfl, hd⟩ := hs
  rcases hd with hk | ⟨ts, hk, hts⟩
  · rw [show stripTriggersOf kind' (.obj kvs) = .ok (.obj kvs) by
      simp [stripTriggersOf, hk]] at h
    cases h
    exact ⟨kvs, rfl, Or.inl hk⟩
  · rcases hst : stripTriggers kind' ts with ts' | ts'
    · rw [show stripTriggersOf kind' (.obj kvs) = .ok (.obj (setKey kvs "triggers" (.arr ts'))) by
        simp [stripTriggersOf, hk, hst]] at h
      cases h
      exact ⟨_, rfl, Or.inr ⟨ts', lookupKey_setKey_self _ _ _,
        headStuck_other kind kind' ts ts' hne (Or.inl hst) hts⟩⟩
    · rw [show stripTriggersOf kind' (.obj kvs) = .ok (.obj (setKey kvs "triggers" (.arr ts'))) by
        simp [stripTriggersOf, hk, hst]] at h
      cases h
      exact ⟨_, rfl, Or.inr ⟨ts', lookupKey_setKey_self _ _ _,
        headStuck_other kind kind' ts ts' hne (Or.inr hst) hts⟩⟩
    · simp [stripTriggersOf, hk, hst] at h

theorem stripTriggersOf_fields (kind : String) (kvs : List (String × Json)) (c' : Json)
    (h : stripTriggersOf kind (.obj kvs) = .ok c') :
    ∃ kvs', c' = .obj kvs' ∧ ∀ k, k ≠ "triggers" → lookupKey kvs' k = lookupKey kvs k := by
  rcases hk : lookupKey kvs "triggers" with _ | v
  · rw [show stripTriggersOf kind (.obj kvs) = .ok (.obj kvs) by
      simp [stripTriggersOf, hk]] at h
    cases h
    exact ⟨kvs, rfl, fun k _ => rfl⟩
  · rcases v with _ | b | n | s | ts | okvs
    case arr =>
      rcases hst : stripTriggers kind ts with ts' | ts'
      · rw [show stripTriggersOf kind (.obj kvs) = .ok (.obj (setKey kvs "triggers" (.arr ts'))) by
          simp [stripTriggersOf, hk, hst]] at h
        cases h
        exact ⟨_, rfl, fun k hk2 => lookupKey_setKey_ne _ _ _ _ hk2⟩
      · rw [show stripTriggersOf kind (.obj kvs) = .ok (.obj (setKey kvs "triggers" (.arr ts'))) by
          simp [stripTriggersOf, hk, hst]] at h
        cases h
        exact ⟨_, rfl, fun k hk2 => lookupKey_setKey_ne _ _ _ _ hk2⟩
      · simp [stripTriggersOf, hk, hst] at h
    all_goals simp [stripTriggersOf, hk] at h

/-- Idempotence of the volatile-field stripping: a content that has already
been stripped once is returned unchanged by a second stripping pass. -/
theorem stripContent_idem (c c' : Json) (h : stripContent c = .ok c') :
    stripContent c' = .ok c' := by
  rcases c with _ | b | n | s | elems | kvs
  case obj =>
    rw [show stripContent (.obj kvs)
        = (stripTriggersOf "document_level_trigger" (.obj (eraseKeys kvs remove_keys))).bind
            (stripTriggersOf "query_level_trigger") from rfl] at h
    rcases h2 : stripTriggersOf "document_level_trigger" (.obj (eraseKeys kvs remove_keys))
      with _ | c2
    · rw [h2] at h
      cases h
    rw [h2] at h
    simp only [Except.bind] at h
    -- h : stripTriggersOf "query_level_trigger" c2 = .ok c'
    have hdoc2 : contStuck "document_level_trigger" c2 :=
      contStuck_of_stripTriggersOf _ _ _ h2
    have hdoc' : contStuck "document_level_trigger" c' :=
      contStuck_other _ "query_level_trigger" c2 c' (by decide) h hdoc2
    obtain ⟨kvs2, rfl, _⟩ := hdoc2
    obtain ⟨f2, hf2, hfields2⟩ := stripTriggersOf_fields _ _ _ h2
    cases hf2
    obtain ⟨f', hf', hfields'⟩ := stripTriggersOf_fields _ _ _ h
    cases hf'
    -- the four volatile keys are absent from the final fields
    have habsent : ∀ k ∈ remove_keys, lookupKey f' k = none := by
      intro k hk
      have h1 : lookupKey (eraseKeys kvs remove_keys) k = none :=
        eraseKeys_lookup_none _ _ _ hk
      have hne : k ≠ "triggers" := by
        have hk4 : k = "enabled_time" ∨ k = "last_update_time" ∨ k = "data_sources" ∨ k = "owner" := by
          simpa [remove_keys] using hk
        rcases hk4 with hh | hh | hh | hh <;> subst hh <;> decide
      rw [hfields' k hne, hfields2 k hne]
      exact h1
    have herase : eraseKeys f' remove_keys = f' :=
      eraseKeys_of_lookup_none _ _ habsent
    rw [show stripContent (.obj f')
        = (stripTriggersOf "document_level_trigger" (.obj (eraseKeys f' remove_keys))).bind
            (stripTriggersOf "query_level_trigger") from rfl, herase,
      stripTriggersOf_of_contStuck _ _ hdoc']
    simp only [Except.bind]
    exact stripTriggersOf_of_contStuck _ _ (contStuck_of_stripTriggersOf _ _ _ h)
  all_goals simp [stripContent] at h

/-- A well-formed monitor record: wrapper dict holding the inner content
under `"monitor"`, with a path-safe name and one volatile key. -/
def exampleMonitor : Json :=
  .obj [("_id", .str "abc123"), ("_version", .num 3),
        ("monitor", .obj [("name", .str "Alert-A"), ("enabled", .bool true),
                          ("owner", .str "alerting")])]

/-- The bare content `prepare_for_create` returns for `exampleMonitor`. -/
def exampleContent : Json :=
  .obj [("name", .str "Alert-A"), ("enabled", .bool true)]

/-- C7 counterexample: `prepare_for_create` succeeds on a well-formed record
but returns the bare inner content, so applying the routine a second time
fails with a missing-key error on `monitor["monitor"]` instead of returning
the same result — the claim's `normalize(normalize(r)) = normalize(r)` fails
as literally stated. -/
theorem c7_counterexample :
    prepare_for_create exampleMonitor = .ok exampleContent ∧
    (prepare_for_create exampleMonitor).bind prepare_for_create = .error () ∧
    (prepare_for_create exampleMonitor).bind prepare_for_create ≠
      prepare_for_create exampleMonitor := by
  refine ⟨rfl, rfl, ?_⟩
  intro hcontra
  have h1 : (prepare_for_create exampleMonitor).bind prepare_for_create = .error () := rfl
  have h2 : prepare_for_create exampleMonitor = .ok exampleContent := rfl
  rw [h1, h2] at hcontra
  exact Except.noConfusion hcontra

/-- C7 (amended): the volatile-field stripping performed by
`prepare_for_create` (removal of `enabled_time`, `last_update_time`,
`data_sources`, `owner` and of the nested trigger/action ids) is idempotent
at the content level: a content stripped once is returned unchanged by a
second stripping pass. The literal claim fails only because
`prepare_for_create` additionally unwraps the `"monitor"` wrapper, so its
output is not of the shape its input must have. -/
theorem c7_normalization_idempotent (c c' : Json) (h : stripContent c = .ok c') :
    stripContent c' = .ok c' :=
  stripContent_idem c c' h

/-- A bare content carrying a volatile key and a query-level trigger with
nested ids, as stored by the local layout. -/
def exampleRawContent : Json :=
  .obj [("name", .str "Alert-A"), ("enabled", .bool true), ("enabled_time", .num 77),
        ("triggers", .arr [.obj [("query_level_trigger", .obj [
          ("id", .str "t1"),
          ("actions", .arr [.obj [("id", .str "a1"), ("name", .str "act")]])])]])]

/-- `exampleRawContent` after one stripping pass. -/
def exampleStrippedContent : Json :=
  .obj [("name", .str "Alert-A"), ("enabled", .bool true),
        ("triggers", .arr [.obj [("query_level_trigger", .obj [
          ("actions", .arr [.obj [("name", .str "act")]])])]])]

theorem c7_witness :
    stripContent exampleRawContent = .ok exampleStrippedContent ∧
    stripContent exampleStrippedContent = .ok exampleStrippedContent :=
  ⟨rfl, c7_normalization_idempotent exampleRawContent exampleStrippedContent rfl⟩

/-! ## Record model and the ordered mappings of both stores

A monitor record as handled by the comparator and the stores: the fields the
core reads are `"_id"`, `"_version"` and `monitor["monitor"]["name"]`.  The
remaining monitor payload is only ever handed to external collaborators
(the DeepDiff library, the file serializer, the OpenSearch transport), which
are parameters of the embedding, so it is not carried here.  Python dicts
(`local.monitors`, `remote.monitors`, `version_sync_mismatch`) become
insertion-ordered association lists with unique keys. -/

structure Record where
  _id : String
  _version : Int
  name : String
deriving DecidableEq

/-- Python `d[key]` / `d.get(key)` over an insertion-ordered dict. -/
def lookupL {α : Type} : List (String × α) → String → Option α
  | [], _ => none
  | (k, v) :: rest, key => if k = key then some v else lookupL rest key

/-- Python `d[key] = v`: replace in place when present, append when absent. -/
def setL {α : Type} : List (String × α) → String → α → List (String × α)
  | [], key, v => [(key, v)]
  | (k, w) :: rest, key, v =>
    if k = key then (key, v) :: rest else (k, w) :: setL rest key v

/-- Python `del d[key]` over a dict (keys unique). -/
def eraseL {α : Type} (m : List (String × α)) (key : String) : List (String × α) :=
  m.filter (fun kv => kv.1 ≠ key)

/-! ## `Comparator` (comparator.py) -/

/-- `Comparator.check_version_state` (comparator.py lines 56-74): iterate the
remote mapping in order; `local_monitors[id]` raises `KeyError` when the id
is absent (modelled as `Except.error`); when the local `_version` is strictly
smaller than the remote one, record `[name, remote_version, local_version]`
under the id in `version_sync_mismatch`. -/
def check_version_state (local_monitors : List (String × Record)) :
    List (String × Record) → Except Unit (List (String × (String × Int × Int)))
  | [] => .ok []
  | (id, remote_version) :: rest =>
    match lookupL local_monitors id with
    | none => .error ()
    | some local_version =>
      if local_version._version < remote_version._version then
        (check_version_state local_monitors rest).map
          (fun m => (id, (local_version.name, remote_version._version,
            local_version._version)) :: m)
      else check_version_state local_monitors rest

/-- `Comparator.compare_monitors` (comparator.py lines 38-54): iterate the
local mapping in order; `remote_monitors[monitor_id]` raises `KeyError` when
the id is absent; store the id in `monitor_diff` when DeepDiff (an external
collaborator, here the parameter `deepDiff`) reports a difference between
the two `monitor` payloads. -/
def compare_monitors (deepDiff : Record → Record → Bool) :
    List (String × Record) → List (String × Record) → Except Unit (List String)
  | [], _ => .ok []
  | (monitor_id, contents) :: rest, remote_monitors =>
    match lookupL remote_monitors monitor_id with
    | none => .error ()
    | some remote_contents =>
      if deepDiff remote_contents contents then
        (compare_monitors deepDiff rest remote_monitors).map (fun m => monitor_id :: m)
      else compare_monitors deepDiff rest remote_monitors

theorem check_version_state_keys (local_monitors : List (String × Record)) :
    ∀ (remote_monitors : List (String × Record)) (res : List (String × (String × Int × Int)))
    (id : String), check_version_state local_monitors remote_monitors = .ok res →
    id ∉ remote_monitors.map Prod.fst → lookupL res id = none
  | [], res, id, h, _ => by
    cases h
    rfl
  | (id0, r0) :: rest, res, id, h, hmem => by
    have hne : id0 ≠ id := fun hh => hmem (by simp [hh])
    have hmem' : id ∉ rest.map Prod.fst := fun hh => hmem (by simp [hh])
    unfold check_version_state at h
    rcases hl : lookupL local_monitors id0 with _ | l0
    · rw [hl] at h
      cases h
    simp only [hl] at h
    by_cases hlt : l0._version < r0._version
    · rw [if_pos hlt] at h
      rcases hrec : check_version_state local_monitors rest with _ | res1
      · rw [hrec] at h
        cases h
      · rw [hrec] at h
        simp only [Except.map] at h
        cases h
        simp only [lookupL, if_neg hne]
        exact check_version_state_keys local_monitors rest res1 id hrec hmem'
    · rw [if_neg hlt] at h
      exact check_version_state_keys local_monitors rest res id h hmem'

/-- C4: for an identity present in both mappings, `check_version_state`
records the gap `(name, remote version, local version)` exactly when the
local `_version` is strictly smaller than the remote one, and records
nothing for that identity otherwise. -/
theorem c4_version_gap (local_monitors : List (String × Record)) :
    ∀ (remote_monitors : List (String × Record)) (res : List (String × (String × Int × Int)))
    (id : String) (l r : Record),
    check_version_state local_monitors remote_monitors = .ok res →
    (remote_monitors.map Prod.fst).Nodup →
    lookupL local_monitors id = some l → lookupL remote_monitors id = some r →
    lookupL res id =
      if l._version < r._version then some (l.name, r._version, l._version) else none
  | [], res, id, l, r, hok, _, _, hr => by
    simp [lookupL] at hr
  | (id0, r0) :: rest, res, id, l, r, hok, hnd, hl, hr => by
    have hnd0 : id0 ∉ rest.map Prod.fst ∧ (rest.map Prod.fst).Nodup := by
      rw [List.map_cons] at hnd
      exact List.nodup_cons.mp hnd
    have hnd1 : id0 ∉ rest.map Prod.fst := hnd0.1
    have hnd2 : (rest.map Prod.fst).Nodup := hnd0.2
    unfold check_version_state at hok
    rcases hl0 : lookupL local_monitors id0 with _ | l0
    · rw [hl0] at hok
      cases hok
    simp only [hl0] at hok
    by_cases hid : id0 = id
    · subst hid
      have hrr : r = r0 := by
        simp only [lookupL, if_pos rfl] at hr
        exact (Option.some.inj hr).symm
      have hll : l = l0 := by
        rw [hl] at hl0
        exact Option.some.inj hl0
      subst hrr
      subst hll
      by_cases hlt : l._version < r._version
      · rw [if_pos hlt] at hok
        rcases hrec : check_version_state local_monitors rest with _ | res1
        · rw [hrec] at hok
          cases hok
        · rw [hrec] at hok
          simp only [Except.map] at hok
          cases hok
          simp [lookupL, hlt]
      · rw [if_neg hlt] at hok
        rw [if_neg hlt]
        exact check_version_state_keys local_monitors rest res id0 hok hnd1
    · have hr' : lookupL rest id = some r := by
        simpa [lookupL, hid] using hr
      by_cases hlt : l0._version < r0._version
      · rw [if_pos hlt] at hok
        rcases hrec : check_version_state local_monitors rest with _ | res1
        · rw [hrec] at hok
          cases hok
        · rw [hrec] at hok
          simp only [Except.map] at hok
          cases hok
          simp only [lookupL, if_neg hid]
          exact c4_version_gap local_monitors rest res1 id l r hrec hnd2 hl hr'
      · rw [if_neg hlt] at hok
        exact c4_version_gap local_monitors rest res id l r hok hnd2 hl hr'

theorem c4_witness :
    check_version_state
        [("m1", ⟨"m1", 2, "Alert-A"⟩), ("m2", ⟨"m2", 7, "Alert-B"⟩)]
        [("m1", ⟨"m1", 5, "Alert-A"⟩), ("m2", ⟨"m2", 7, "Alert-B"⟩)] =
      .ok [("m1", ("Alert-A", 5, 2))] ∧
    lookupL [("m1", ("Alert-A", (5 : Int), (2 : Int)))] "m1" = some ("Alert-A", 5, 2) ∧
    lookupL [("m1", ("Alert-A", (5 : Int), (2 : Int)))] "m2" = none := by
  refine ⟨rfl, ?_, ?_⟩
  · have h := c4_version_gap
      [("m1", ⟨"m1", 2, "Alert-A"⟩), ("m2", ⟨"m2", 7, "Alert-B"⟩)]
      [("m1", ⟨"m1", 5, "Alert-A"⟩), ("m2", ⟨"m2", 7, "Alert-B"⟩)]
      [("m1", ("Alert-A", 5, 2))] "m1" ⟨"m1", 2, "Alert-A"⟩ ⟨"m1", 5, "Alert-A"⟩
      rfl (by decide) rfl rfl
    simpa using h
  · have h := c4_version_gap
      [("m1", ⟨"m1", 2, "Alert-A"⟩), ("m2", ⟨"m2", 7, "Alert-B"⟩)]
      [("m1", ⟨"m1", 5, "Alert-A"⟩), ("m2", ⟨"m2", 7, "Alert-B"⟩)]
      [("m1", ("Alert-A", 5, 2))] "m2" ⟨"m2", 7, "Alert-B"⟩ ⟨"m2", 7, "Alert-B"⟩
      rfl (by decide) rfl rfl
    simpa using h

theorem compare_monitors_missing (deepDiff : Record → Record → Bool) :
    ∀ (local_monitors remote_monitors : List (String × Record)),
    (∃ p ∈ local_monitors, lookupL remote_monitors p.1 = none) →
    compare_monitors deepDiff local_monitors remote_monitors = .error ()
  | [], _, h => by
    obtain ⟨p, hp, _⟩ := h
    cases hp
  | (monitor_id, contents) :: rest, remote_monitors, h => by
    unfold compare_monitors
    rcases hr : lookupL remote_monitors monitor_id with _ | remote_contents
    · rfl
    · simp only [hr]
      obtain ⟨p, hp, hnone⟩ := h
      rcases List.mem_cons.mp hp with hp1 | hp1
      · rw [hp1] at hnone
        rw [hnone] at hr
        cases hr
      · have hrec := compare_monitors_missing deepDiff rest remote_monitors ⟨p, hp1, hnone⟩
        rw [hrec]
        by_cases hd : deepDiff remote_contents contents
        · simp [hd, Except.map]
        · simp [hd]

theorem check_version_state_missing :
    ∀ (local_monitors remote_monitors : List (String × Record)),
    (∃ p ∈ remote_monitors, lookupL local_monitors p.1 = none) →
    check_version_state local_monitors remote_monitors = .error ()
  | _, [], h => by
    obtain ⟨p, hp, _⟩ := h
    cases hp
  | local_monitors, (id, remote_version) :: rest, h => by
    unfold check_version_state
    rcases hl : lookupL local_monitors id with _ | local_version
    · rfl
    · simp only [hl]
      obtain ⟨p, hp, hnone⟩ := h
      rcases List.mem_cons.mp hp with hp1 | hp1
      · rw [hp1] at hnone
        rw [hnone] at hl
        cases hl
      · have hrec := check_version_state_missing local_monitors rest ⟨p, hp1, hnone⟩
        rw [hrec]
        by_cases hd : local_version._version < remote_version._version
        · simp [hd, Except.map]
        · simp [hd]

/-- C9: the comparison operations are total only when every key of the
iterated mapping is present in the other one: `compare_monitors` hits a
missing-key lookup error whenever some local identity is absent from the
remote mapping, and `check_version_state` hits one whenever some remote
identity is absent from the local mapping — neither skips the identity. -/
theorem c9_lookup_error (deepDiff : Record → Record → Bool)
    (local_monitors remote_monitors : List (String × Record)) :
    ((∃ p ∈ local_monitors, lookupL remote_monitors p.1 = none) →
      compare_monitors deepDiff local_monitors remote_monitors = .error ()) ∧
    ((∃ p ∈ remote_monitors, lookupL local_monitors p.1 = none) →
      check_version_state local_monitors remote_monitors = .error ()) :=
  ⟨compare_monitors_missing deepDiff local_monitors remote_monitors,
   check_version_state_missing local_monitors remote_monitors⟩

theorem c9_witness :
    compare_monitors (fun _ _ => false)
        [("a", ⟨"a", 1, "Alert-A"⟩)] [("b", ⟨"b", 1, "Alert-B"⟩)] = .error () ∧
    check_version_state [("b", ⟨"b", 1, "Alert-B"⟩)]
        [("a", ⟨"a", 1, "Alert-A"⟩)] = .error () :=
  ⟨(c9_lookup_error (fun _ _ => false) [("a", ⟨"a", 1, "Alert-A"⟩)]
      [("b", ⟨"b", 1, "Alert-B"⟩)]).1 ⟨("a", ⟨"a", 1, "Alert-A"⟩), by simp, rfl⟩,
   (c9_lookup_error (fun _ _ => false) [("b", ⟨"b", 1, "Alert-B"⟩)]
      [("a", ⟨"a", 1, "Alert-A"⟩)]).2 ⟨("a", ⟨"a", 1, "Alert-A"⟩), by simp, rfl⟩⟩

/-! ## Local storage (localstorage.py) and the sync pass (manager.py)

The observable effects of a sync pass are modelled as an event trace:
file-system writes/removals of the local store, calls to the remote store,
confirmation prompts, and the process abort performed by `helper.error`.
The on-disk layout is an insertion-ordered association list from directory
name to the `Record` parsed from its `monitor.json` (directories whose
`monitor.json` is missing or unparseable abort or are skipped before the
behaviour the claims are about; they are not represented). Runs are modelled
without `--dryrun`. -/

inductive Event where
  | confirm (key : String) (ans : Bool)
  | storeLocal (name : String)
  | removeLocal (name : String)
  | createRemote (id : String)
  | updateRemote (id : String)
  | abort
deriving DecidableEq

/-- The loop body of `ManageLocalMonitors.load_monitors` (localstorage.py
lines 217-250): enumerate directories in order; a falsy `"_id"` synthesizes a
placeholder id `"create"` plus ten random lowercase letters (the external
randomness is the parameter `gen`, indexed by synthesis count); on an id
collision keep the entry with the strictly higher `_version` and remove the
other from disk (`remove_monitor`), the incumbent winning ties. -/
def loadLoop (gen : Nat → String) : Nat → List (String × Record) →
    List (String × Record) → List Event × List (String × Record)
  | _, [], all_monitors => ([], all_monitors)
  | n, (_, monitor) :: rest, all_monitors =>
    let monitor_id := if monitor._id ≠ "" then monitor._id else "create" ++ gen n
    let n' := if monitor._id ≠ "" then n else n + 1
    match lookupL all_monitors monitor_id with
    | some prev =>
      if monitor._version > prev._version then
        let res := loadLoop gen n' rest (setL all_monitors monitor_id monitor)
        (Event.removeLocal prev.name :: res.1, res.2)
      else
        let res := loadLoop gen n' rest all_monitors
        (Event.removeLocal monitor.name :: res.1, res.2)
    | none => loadLoop gen n' rest (all_monitors ++ [(monitor_id, monitor)])

/-- Case-insensitive substring test, Python `needle.lower() in hay.lower()`. -/
def strContainsLower (hay needle : String) : Bool :=
  decide (needle.toLower.data <:+: hay.toLower.data)

/-- The name filter applied at the end of `load_monitors` (localstorage.py
lines 252-259); `filt` is `config["filter"]`, set only by the `-l` flag. -/
def filterMonitors (filt : Option String) (all_monitors : List (String × Record)) :
    List (String × Record) :=
  match filt with
  | none => all_monitors
  | some f => all_monitors.filter (fun kv => strContainsLower kv.2.name f)

/-- `ManageLocalMonitors.load_monitors` (localstorage.py lines 188-259). -/
def load_monitors (gen : Nat → String) (filt : Option String)
    (dirs : List (String × Record)) : List Event × List (String × Record) :=
  let res := loadLoop gen 0 dirs []
  (res.1, filterMonitors filt res.2)

/-- `ManageLocalMonitors.clean_folders` (localstorage.py lines 51-127), in a
non-dry run: per directory, abort the process (`helper.error`) on a
path-unsafe monitor name; on a directory/name mismatch ask for confirmation
and, if granted, move the folder (remove old, store under the name); the
`cleanup` rename map gains the entry whether or not the move was confirmed.
Returns the events, the rename map and the resulting layout; on abort the
events up to and including the abort. -/
def clean_folders (answers : String → Bool) :
    List (String × Record) →
    Except (List Event) (List Event × List (String × String) × List (String × Record))
  | [] => .ok ([], [], [])
  | (monitor_dir, monitor) :: rest =>
    if pathsafe monitor.name then
      if monitor_dir ≠ monitor.name then
        let ans := answers monitor_dir
        let evs := Event.confirm monitor_dir ans ::
          (if ans then [Event.removeLocal monitor_dir, Event.storeLocal monitor.name] else [])
        let entry := if ans then (monitor.name, monitor) else (monitor_dir, monitor)
        match clean_folders answers rest with
        | .error evs2 => .error (evs ++ evs2)
        | .ok (evs2, ren, dirs2) =>
          .ok (evs ++ evs2, (monitor_dir, monitor.name) :: ren, entry :: dirs2)
      else
        match clean_folders answers rest with
        | .error evs2 => .error evs2
        | .ok (evs2, ren, dirs2) => .ok (evs2, ren, (monitor_dir, monitor) :: dirs2)
    else .error [Event.abort]

/-- The remote-set integrity check of the sync pass (manager.py lines
368-385): walk the remote monitors in order, aborting on a name already
seen or a path-unsafe name. Returns whether the pass aborts. -/
def integrity_violation : List (String × Record) → List String → Bool
  | [], _ => false
  | (_, remote_contents) :: rest, duplicate_remote_names =>
    if duplicate_remote_names.contains remote_contents.name then true
    else if !pathsafe remote_contents.name then true
    else integrity_violation rest (remote_contents.name :: duplicate_remote_names)

/-- The `ADOPT_REMOTE_ONLY` stage (manager.py lines 387-397): iterate the
remote mapping in order; identities absent from the local mapping are stored
locally and added to the in-memory local mapping, with no confirmation.
Returns (events, local mapping, disk layout). -/
def adopt_stage : List (String × Record) → List (String × Record) →
    List (String × Record) →
    List Event × List (String × Record) × List (String × Record)
  | local_monitors, [], disk => ([], local_monitors, disk)
  | local_monitors, (monitor_id, r) :: rest, disk =>
    match lookupL local_monitors monitor_id with
    | some _ => adopt_stage local_monitors rest disk
    | none =>
      let res := adopt_stage (setL local_monitors monitor_id r) rest (setL disk r.name r)
      (Event.storeLocal r.name :: res.1, res.2)

/-- Result of the `OFFER_LOCAL_ONLY` stage. -/
structure OfferRes where
  events : List Event
  disk : List (String × Record)
  skipped : List String
  created : List (String × Record)
  created_new : Bool

/-- The loop of the `OFFER_LOCAL_ONLY` stage (manager.py lines 399-429):
iterate the local mapping in order; for each identity absent from the remote
mapping ask for confirmation; on accept call the remote `create_monitor`
(external collaborator `create`, applied to the record after
`prepare_for_create` stripping) and store the authoritative returned record
locally; on decline append the id to `skipped`. -/
def offer_loop (answers : String → Bool) (create : Record → String × Record)
    (remote_monitors : List (String × Record)) :
    List (String × Record) → List (String × Record) → OfferRes
  | [], disk => ⟨[], disk, [], [], false⟩
  | (monitor_id, r) :: rest, disk =>
    match lookupL remote_monitors monitor_id with
    | some _ => offer_loop answers create remote_monitors rest disk
    | none =>
      let ans := answers monitor_id
      if ans then
        let c := create r
        let res := offer_loop answers create remote_monitors rest (setL disk c.2.name c.2)
        ⟨Event.confirm monitor_id true :: Event.createRemote monitor_id ::
            Event.storeLocal c.2.name :: res.events,
          res.disk, res.skipped, (c.1, c.2) :: res.created, true⟩
      else
        let res := offer_loop answers create remote_monitors rest disk
        ⟨Event.confirm monitor_id false :: res.events,
          res.disk, monitor_id :: res.skipped, res.created, res.created_new⟩

/-- The `OFFER_LOCAL_ONLY` stage including the `for id in skipped: del
local.monitors[id]` epilogue (manager.py lines 430-431). -/
def offer_stage (answers : String → Bool) (create : Record → String × Record)
    (local_monitors remote_monitors disk : List (String × Record)) :
    OfferRes × List (String × Record) :=
  let res := offer_loop answers create remote_monitors local_monitors disk
  (res, res.skipped.foldl eraseL local_monitors)

/-- The `RECONCILE_VERSIONS` loop (manager.py lines 442-457): for each
version mismatch, in mismatch-map order, confirm and on accept overwrite the
local copy with the remote record. -/
def version_loop (answers : String → Bool) (remote_monitors : List (String × Record)) :
    List (String × (String × Int × Int)) → List (String × Record) →
    List Event × List (String × Record)
  | [], disk => ([], disk)
  | (id, _) :: rest, disk =>
    match lookupL remote_monitors id with
    | some rr =>
      let ans := answers id
      if ans then
        let res := version_loop answers remote_monitors rest (setL disk rr.name rr)
        (Event.confirm id true :: Event.storeLocal rr.name :: res.1, res.2)
      else
        let res := version_loop answers remote_monitors rest disk
        (Event.confirm id false :: res.1, res.2)
    | none => ([Event.abort], disk)

/-- The `RECONCILE_CONTENT` loop (manager.py lines 466-491): for each
differing identity, in diff-map order, confirm and on accept call the remote
`update_monitor` (external collaborator `update`) and store the
authoritative returned record locally. -/
def content_loop (answers : String → Bool) (update : String → Record → String × Record)
    (local_monitors : List (String × Record)) :
    List String → List (String × Record) → List Event × List (String × Record)
  | [], disk => ([], disk)
  | id :: rest, disk =>
    match lookupL local_monitors id with
    | some lr =>
      let ans := answers id
      if ans then
        let upd := update id lr
        let res := content_loop answers update local_monitors rest (setL disk upd.2.name upd.2)
        (Event.confirm id true :: Event.updateRemote id :: Event.storeLocal upd.2.name :: res.1,
          res.2)
      else
        let res := content_loop answers update local_monitors rest disk
        (Event.confirm id false :: res.1, res.2)
    | none => ([Event.abort], disk)

/-- The `RECONCILE_CONTENT` tail of the pass (manager.py lines 464-495):
`compare_monitors` (an uncaught `KeyError` crashes the pass) followed by the
per-diff confirmation loop. -/
def content_tail (answers : String → Bool) (update : String → Record → String × Record)
    (deepDiff : Record → Record → Bool)
    (local_monitors remote1 disk : List (String × Record)) : List Event :=
  match compare_monitors deepDiff local_monitors remote1 with
  | .error _ => [Event.abort]
  | .ok diffs => (content_loop answers update local_monitors diffs disk).1

/-- One full sync pass (`manager.py`, `arg.sync` branch, lines 348-508, plus
the initial `load_monitors` calls of line 206): initial local load,
`clean_folders` (reloading when the rename map is nonempty), the remote-set
integrity check (fatal), adoption of remote-only monitors, the offer stage
for local-only monitors (reloading both stores after any creation, the
remote reload now containing the created records), the version stage
(reload and re-clean after any mismatch handling) and the content stage.
README/metadata generation and chat notification are outside the core and
not represented. Returns the event trace, ending at the abort if one
occurs. -/
def sync_pass (answers : String → Bool) (gen : Nat → String)
    (create : Record → String × Record) (update : String → Record → String × Record)
    (deepDiff : Record → Record → Bool)
    (dirs remote_monitors : List (String × Record)) : List Event :=
  let load0 := load_monitors gen none dirs
  match clean_folders answers dirs with
  | .error evs => load0.1 ++ evs
  | .ok (cleanEvs, cleanup, dirs1) =>
    let load1 := if cleanup.isEmpty then (([] : List Event), load0.2)
                 else load_monitors gen none dirs1
    let pre := load0.1 ++ cleanEvs ++ load1.1
    if integrity_violation remote_monitors [] then pre ++ [Event.abort]
    else
      let adopt := adopt_stage load1.2 remote_monitors dirs1
      let offer := offer_stage answers create adopt.2.1 remote_monitors adopt.2.2
      let load2 := if (offer.1).created_new then load_monitors gen none (offer.1).disk
                   else (([] : List Event), offer.2)
      let remote1 := if (offer.1).created_new then remote_monitors ++ (offer.1).created
                     else remote_monitors
      let pre2 := pre ++ adopt.1 ++ (offer.1).events ++ load2.1
      match check_version_state load2.2 remote1 with
      | .error _ => pre2 ++ [Event.abort]
      | .ok mismatches =>
        match mismatches with
        | [] => pre2 ++ content_tail answers update deepDiff load2.2 remote1 (offer.1).disk
        | m :: ms =>
          let ver := version_loop answers remote1 (m :: ms) (offer.1).disk
          let load3 := load_monitors gen none ver.2
          match clean_folders answers ver.2 with
          | .error evs => pre2 ++ ver.1 ++ load3.1 ++ evs
          | .ok (cleanEvs2, _, _) =>
            pre2 ++ ver.1 ++ load3.1 ++ cleanEvs2 ++
              content_tail answers update deepDiff load3.2 remote1 ver.2

/-- Remote-store mutations: the `create_monitor` / `update_monitor` calls. -/
def isRemoteCall : Event → Bool
  | .createRemote _ => true
  | .updateRemote _ => true
  | _ => false

theorem loadLoop_no_remote (gen : Nat → String) :
    ∀ (n : Nat) (dirs acc : List (String × Record)),
    ((loadLoop gen n dirs acc).1).all (fun e => !isRemoteCall e) = true
  | _, [], _ => rfl
  | n, (d, monitor) :: rest, acc => by
    unfold loadLoop
    rcases hl : lookupL acc (if monitor._id ≠ "" then monitor._id else "create" ++ gen n)
      with _ | prev
    · simp only [hl]
      exact loadLoop_no_remote gen _ rest _
    · simp only [hl]
      by_cases hv : monitor._version > prev._version
      · simpa [hv, isRemoteCall] using loadLoop_no_remote gen _ rest _
      · simpa [hv, isRemoteCall] using loadLoop_no_remote gen _ rest _

theorem load_monitors_no_remote (gen : Nat → String) (filt : Option String)
    (dirs : List (String × Record)) :
    ((load_monitors gen filt dirs).1).all (fun e => !isRemoteCall e) = true :=
  loadLoop_no_remote gen 0 dirs []

theorem clean_folders_no_remote (answers : String → Bool) :
    ∀ (dirs : List (String × Record))
    (r : List Event × List (String × String) × List (String × Record)),
    clean_folders answers dirs = .ok r → (r.1).all (fun e => !isRemoteCall e) = true
  | [], r, h => by
    cases h
    rfl
  | (monitor_dir, monitor) :: rest, r, h => by
    unfold clean_folders at h
    by_cases hp : pathsafe monitor.name
    · rw [if_pos hp] at h
      by_cases hd : monitor_dir ≠ monitor.name
      · rw [if_pos hd] at h
        rcases hrec : clean_folders answers rest with _ | r2
        · rw [hrec] at h
          cases h
        · rw [hrec] at h
          cases h
          have ih := clean_folders_no_remote answers rest r2 hrec
          by_cases ha : answers monitor_dir
          · simpa [ha, isRemoteCall] using ih
          · simpa [ha, isRemoteCall] using ih
      · rw [if_neg hd] at h
        rcases hrec : clean_folders answers rest with _ | r2
        · rw [hrec] at h
          cases h
        · rw [hrec] at h
          cases h
          exact clean_folders_no_remote answers rest r2 hrec
    · rw [if_neg hp] at h
      cases h

/-- C1 counterexample: a concrete pass whose remote set has a duplicate name
(so the integrity check aborts) but whose local layout has a folder/name
mismatch: `clean_folders` runs first and moves the folder, so a local
removal and a local write precede the abort, contradicting the claim that no
local file write, move or removal precedes it. -/
theorem c1_counterexample :
    sync_pass (fun _ => true) (fun _ => "aaaaaaaaaa") (fun r => ("newid", r))
        (fun id r => (id, r)) (fun _ _ => false)
        [("old", ⟨"m1", 1, "new"⟩)]
        [("r1", ⟨"r1", 1, "X"⟩), ("r2", ⟨"r2", 1, "X"⟩)] =
      [Event.confirm "old" true, Event.removeLocal "old", Event.storeLocal "new",
        Event.abort] ∧
    integrity_violation [("r1", ⟨"r1", 1, "X"⟩), ("r2", ⟨"r2", 1, "X"⟩)] [] = true := by
  exact ⟨rfl, rfl⟩

/-- C1 (amended): when the remote-set integrity check finds a duplicate or
path-unsafe name, the pass aborts immediately after the initial load, the
`clean_folders` pass and the conditional reload: no remote call ever
precedes the abort and no mutation beyond the `clean_folders` moves/removals
and the load-time de-duplication removals does — but those local moves and
removals can precede the abort. -/
theorem c1_integrity_abort (answers : String → Bool) (gen : Nat → String)
    (create : Record → String × Record) (update : String → Record → String × Record)
    (deepDiff : Record → Record → Bool) (dirs remote_monitors : List (String × Record))
    (cleanEvs : List Event) (cleanup : List (String × String))
    (dirs1 : List (String × Record))
    (hclean : clean_folders answers dirs = .ok (cleanEvs, cleanup, dirs1))
    (hviol : integrity_violation remote_monitors [] = true) :
    sync_pass answers gen create update deepDiff dirs remote_monitors =
      ((load_monitors gen none dirs).1 ++ cleanEvs ++
        (if cleanup.isEmpty then [] else (load_monitors gen none dirs1).1)) ++
        [Event.abort] ∧
    ((load_monitors gen none dirs).1 ++ cleanEvs ++
        (if cleanup.isEmpty then [] else (load_monitors gen none dirs1).1)).all
      (fun e => !isRemoteCall e) = true := by
  constructor
  · unfold sync_pass
    rw [hclean]
    by_cases hc : cleanup.isEmpty <;> simp [hc, hviol]
  · have h0 := load_monitors_no_remote gen none dirs
    have h1 := clean_folders_no_remote answers dirs (cleanEvs, cleanup, dirs1) hclean
    by_cases hc : cleanup.isEmpty
    · simp only [hc, if_true]
      simp only [List.all_append]
      simp_all
    · simp only [hc, if_false]
      have h2 := load_monitors_no_remote gen none dirs1
      simp only [List.all_append]
      simp_all

theorem c1_witness :
    sync_pass (fun _ => true) (fun _ => "aaaaaaaaaa") (fun r => ("newid", r))
        (fun id r => (id, r)) (fun _ _ => false)
        [("X", ⟨"m1", 1, "X"⟩)]
        [("r1", ⟨"r1", 1, "Y"⟩), ("r2", ⟨"r2", 1, "Y"⟩)] =
      (([] : List Event) ++ [] ++ (if (List.nil (α := String × String)).isEmpty then []
        else (load_monitors (fun _ => "aaaaaaaaaa") none [("X", ⟨"m1", 1, "X"⟩)]).1)) ++
        [Event.abort] := by
  have h := c1_integrity_abort (fun _ => true) (fun _ => "aaaaaaaaaa")
    (fun r => ("newid", r)) (fun id r => (id, r)) (fun _ _ => false)
    [("X", ⟨"m1", 1, "X"⟩)] [("r1", ⟨"r1", 1, "Y"⟩), ("r2", ⟨"r2", 1, "Y"⟩)]
    [] [] [("X", ⟨"m1", 1, "X"⟩)] rfl rfl
  simpa using h.1

theorem lookupL_setL_self {α : Type} : ∀ (m : List (String × α)) (k : String) (v : α),
    lookupL (setL m k v) k = some v
  | [], k, v => by simp [setL, lookupL]
  | (a, b) :: rest, k, v => by
    by_cases h : a = k
    · simp [setL, h, lookupL]
    · simp [setL, h, lookupL, lookupL_setL_self rest k v]

theorem lookupL_setL_ne {α : Type} : ∀ (m : List (String × α)) (k k' : String) (v : α),
    k ≠ k' → lookupL (setL m k' v) k = lookupL m k
  | [], k, k', v, h => by
    have h' : ¬ (k' = k) := fun hh => h hh.symm
    simp [setL, lookupL, h']
  | (a, b) :: rest, k, k', v, h => by
    by_cases h1 : a = k'
    · subst h1
      have h' : ¬ (a = k) := fun hh => h hh.symm
      simp [setL, lookupL, h']
    · simp only [setL, if_neg h1, lookupL]
      by_cases h2 : a = k
      · simp [h2]
      · simp [h2, lookupL_setL_ne rest k k' v h]

theorem lookupL_append {α : Type} : ∀ (xs ys : List (String × α)) (k : String),
    lookupL (xs ++ ys) k = match lookupL xs k with
      | some v => some v
      | none => lookupL ys k
  | [], ys, k => by simp [lookupL]
  | (a, b) :: rest, ys, k => by
    by_cases h : a = k
    · simp [lookupL, h]
    · simp [lookupL, h, lookupL_append rest ys k]

theorem lookupL_eraseL_self {α : Type} (m : List (String × α)) (k : String) :
    lookupL (eraseL m k) k = none := by
  induction m with
  | nil => rfl
  | cons kv rest ih =>
    by_cases h : kv.1 = k
    · simpa [eraseL, List.filter, h] using ih
    · simpa [eraseL, List.filter, h, lookupL] using ih

theorem lookupL_eraseL_none {α : Type} (m : List (String × α)) (k k' : String)
    (h : lookupL m k = none) : lookupL (eraseL m k') k = none := by
  induction m with
  | nil => rfl
  | cons kv rest ih =>
    simp only [lookupL] at h
    by_cases h1 : kv.1 = k
    · simp [h1] at h
    · by_cases h2 : kv.1 = k'
      · simpa [eraseL, List.filter, h2] using ih (by simpa [h1] using h)
      · simpa [eraseL, List.filter, h2, lookupL, h1] using ih (by simpa [h1] using h)

theorem lookupL_foldl_eraseL_none {α : Type} : ∀ (sk : List String) (m : List (String × α))
    (id : String), lookupL m id = none → lookupL (sk.foldl eraseL m) id = none
  | [], _, _, h => h
  | a :: rest, m, id, h =>
    lookupL_foldl_eraseL_none rest (eraseL m a) id (lookupL_eraseL_none m id a h)

theorem lookupL_foldl_eraseL {α : Type} : ∀ (sk : List String) (m : List (String × α))
    (id : String), id ∈ sk → lookupL (sk.foldl eraseL m) id = none
  | [], _, _, h => by cases h
  | a :: rest, m, id, h => by
    rcases List.mem_cons.mp h with h1 | h1
    · subst h1
      exact lookupL_foldl_eraseL_none rest (eraseL m id) id (lookupL_eraseL_self m id)
    · exact lookupL_foldl_eraseL rest (eraseL m a) id h1

/-- Confirmation-gate invocations. -/
def isConfirm : Event → Bool
  | .confirm _ _ => true
  | _ => false

/-- Local-store removals. -/
def isRemoveLocal : Event → Bool
  | .removeLocal _ => true
  | _ => false

theorem adopt_stage_no_confirm :
    ∀ (local_monitors remote_monitors disk : List (String × Record)),
    ((adopt_stage local_monitors remote_monitors disk).1).all (fun e => !isConfirm e) = true
  | _, [], _ => rfl
  | local_monitors, (monitor_id, r) :: rest, disk => by
    unfold adopt_stage
    rcases hl : lookupL local_monitors monitor_id with _ | prev
    · simp only [hl]
      simpa [isConfirm] using
        adopt_stage_no_confirm (setL local_monitors monitor_id r) rest (setL disk r.name r)
    · simp only [hl]
      exact adopt_stage_no_confirm local_monitors rest disk

/-- Scans an event trace checking that every `createRemote` for an identity
is preceded by a `confirm` with answer `true` for that same identity. -/
def createConfirmed (seen : List String) : List Event → Bool
  | [] => true
  | Event.confirm key true :: rest => createConfirmed (key :: seen) rest
  | Event.createRemote id :: rest => seen.contains id && createConfirmed seen rest
  | _ :: rest => createConfirmed seen rest

theorem offer_loop_creates_confirmed (answers : String → Bool)
    (create : Record → String × Record) (remote_monitors : List (String × Record)) :
    ∀ (items disk : List (String × Record)) (seen : List String),
    createConfirmed seen ((offer_loop answers create remote_monitors items disk).events) = true
  | [], _, _ => rfl
  | (monitor_id, r) :: rest, disk, seen => by
    unfold offer_loop
    rcases hl : lookupL remote_monitors monitor_id with _ | prev
    · simp only [hl]
      by_cases ha : answers monitor_id
      · simp only [ha, if_true]
        show createConfirmed seen (Event.confirm monitor_id true :: Event.createRemote monitor_id
          :: Event.storeLocal (create r).2.name :: _) = true
        show createConfirmed (monitor_id :: seen) (Event.createRemote monitor_id
          :: Event.storeLocal (create r).2.name :: _) = true
        unfold createConfirmed
        rw [show (monitor_id :: seen).contains monitor_id = true by simp]
        simpa using offer_loop_creates_confirmed answers create remote_monitors rest
          (setL disk (create r).2.name (create r).2) (monitor_id :: seen)
      · simp only [ha, if_false]
        show createConfirmed seen (Event.confirm monitor_id false :: _) = true
        exact offer_loop_creates_confirmed answers create remote_monitors rest disk seen
    · simp only [hl]
      exact offer_loop_creates_confirmed answers create remote_monitors rest disk seen

/-- C5: adopting a remote-only monitor into the local store never invokes
the confirmation gate (no `confirm` event appears in the adopt stage), and
in the offer stage the remote `create_monitor` is invoked for a local-only
monitor only after the confirmation gate returned `true` for that same
monitor earlier in the trace. -/
theorem c5_confirmation_gating (answers : String → Bool) (create : Record → String × Record)
    (local_monitors remote_monitors disk odisk : List (String × Record)) :
    ((adopt_stage local_monitors remote_monitors disk).1).all (fun e => !isConfirm e) = true ∧
    createConfirmed []
      ((offer_loop answers create remote_monitors local_monitors odisk).events) = true :=
  ⟨adopt_stage_no_confirm local_monitors remote_monitors disk,
   offer_loop_creates_confirmed answers create remote_monitors local_monitors odisk []⟩

/-- An operator who declines every prompt. -/
def noAnswers : String → Bool := fun _ => false

/-- A stub remote `create_monitor` collaborator: echoes the record under a
fresh remote id. -/
def createStub : Record → String × Record := fun r => ("newid", r)

/-- The keys of the confirmation prompts of a trace, in prompt order. -/
def confirmKeys (evs : List Event) : List String :=
  evs.filterMap (fun e => match e with
    | Event.confirm key _ => some key
    | _ => none)

theorem adopt_stage_order :
    ∀ (remote_monitors local_monitors disk : List (String × Record)),
    (remote_monitors.map Prod.fst).Nodup →
    (adopt_stage local_monitors remote_monitors disk).1 =
      (remote_monitors.filter (fun p => (lookupL local_monitors p.1).isNone)).map
        (fun p => Event.storeLocal p.2.name)
  | [], _, _, _ => rfl
  | (monitor_id, r) :: rest, local_monitors, disk, hnd => by
    have hnd0 : monitor_id ∉ rest.map Prod.fst ∧ (rest.map Prod.fst).Nodup := by
      rw [List.map_cons] at hnd
      exact List.nodup_cons.mp hnd
    unfold adopt_stage
    rcases hl : lookupL local_monitors monitor_id with _ | prev
    · simp only [hl, List.filter_cons, Option.isNone_none]
      rw [adopt_stage_order rest (setL local_monitors monitor_id r) (setL disk r.name r) hnd0.2]
      have hfc : rest.filter (fun p => (lookupL (setL local_monitors monitor_id r) p.1).isNone)
          = rest.filter (fun p => (lookupL local_monitors p.1).isNone) := by
        refine List.filter_congr ?_
        intro p hp
        have hne : p.1 ≠ monitor_id := by
          intro hh
          exact hnd0.1 (by
            rw [← hh]
            exact List.mem_map.mpr ⟨p, hp, rfl⟩)
        rw [lookupL_setL_ne local_monitors p.1 monitor_id r hne]
      rw [hfc]
      simp [hl]
    · simp only [hl]
      rw [adopt_stage_order rest local_monitors disk hnd0.2]
      simp [List.filter_cons, hl]

theorem offer_loop_confirm_order (answers : String → Bool)
    (create : Record → String × Record) (remote_monitors : List (String × Record)) :
    ∀ (items disk : List (String × Record)),
    confirmKeys ((offer_loop answers create remote_monitors items disk).events) =
      (items.filter (fun p => (lookupL remote_monitors p.1).isNone)).map Prod.fst
  | [], _ => rfl
  | (monitor_id, r) :: rest, disk => by
    unfold offer_loop
    rcases hl : lookupL remote_monitors monitor_id with _ | prev
    · simp only [hl]
      by_cases ha : answers monitor_id
      · simp only [ha, if_true, List.filter_cons, Option.isNone_none]
        have ih := offer_loop_confirm_order answers create remote_monitors rest
          (setL disk (create r).2.name (create r).2)
        simp only [confirmKeys, List.filterMap] at ih ⊢
        simpa [hl] using ih
      · simp only [ha, if_false, List.filter_cons, Option.isNone_none]
        have ih := offer_loop_confirm_order answers create remote_monitors rest disk
        simp only [confirmKeys, List.filterMap] at ih ⊢
        simpa [hl] using ih
    · simp only [hl, List.filter_cons]
      have ih := offer_loop_confirm_order answers create remote_monitors rest disk
      simpa [hl] using ih

/-- C6 counterexample: with the remote mapping enumerating monitor `"B"`
before monitor `"A"`, the adopt stage stores `"B"` first although `"A"` is
lexicographically smaller — the stages follow mapping enumeration order,
not name order. -/
theorem c6_counterexample :
    (adopt_stage [] [("1", ⟨"1", 1, "B"⟩), ("2", ⟨"2", 1, "A"⟩)] []).1 =
      [Event.storeLocal "B", Event.storeLocal "A"] ∧
    "A".data = ['A'] ∧ "B".data = ['B'] ∧ ('A' < 'B') :=
  ⟨rfl, rfl, rfl, by decide⟩

/-- C6 (amended): within a stage, monitors are processed in the enumeration
(insertion) order of the iterated mapping — the adopt stage stores exactly
the remote-only records in remote-mapping order, and the offer stage prompts
exactly for the local-only identities in local-mapping order. The order is
deterministic for identical inputs, but it is not sorted by name. -/
theorem c6_mapping_order (answers : String → Bool) (create : Record → String × Record)
    (local_monitors remote_monitors disk odisk : List (String × Record))
    (hnd : (remote_monitors.map Prod.fst).Nodup) :
    (adopt_stage local_monitors remote_monitors disk).1 =
      (remote_monitors.filter (fun p => (lookupL local_monitors p.1).isNone)).map
        (fun p => Event.storeLocal p.2.name) ∧
    confirmKeys ((offer_loop answers create remote_monitors local_monitors odisk).events) =
      (local_monitors.filter (fun p => (lookupL remote_monitors p.1).isNone)).map Prod.fst :=
  ⟨adopt_stage_order remote_monitors local_monitors disk hnd,
   offer_loop_confirm_order answers create remote_monitors local_monitors odisk⟩

theorem c6_witness :
    (adopt_stage [] [("1", ⟨"1", 1, "B"⟩), ("2", ⟨"2", 1, "A"⟩)] []).1 =
      ([("1", (⟨"1", 1, "B"⟩ : Record)), ("2", ⟨"2", 1, "A"⟩)].filter
        (fun p => (lookupL ([] : List (String × Record)) p.1).isNone)).map
        (fun p => Event.storeLocal p.2.name) ∧
    confirmKeys ((offer_loop noAnswers createStub [("1", ⟨"1", 1, "B"⟩),
        ("2", ⟨"2", 1, "A"⟩)] [("l1", ⟨"l1", 1, "L"⟩)] []).events) =
      ([("l1", (⟨"l1", 1, "L"⟩ : Record))].filter
        (fun p => (lookupL [("1", (⟨"1", 1, "B"⟩ : Record)), ("2", ⟨"2", 1, "A"⟩)] p.1).isNone)).map
        Prod.fst :=
  c6_mapping_order noAnswers createStub [("l1", ⟨"l1", 1, "L"⟩)]
    [("1", ⟨"1", 1, "B"⟩), ("2", ⟨"2", 1, "A"⟩)] [] [] (by decide)

/-- The de-duplication choice of `load_monitors`, per on-disk entry in
enumeration order: an entry with a matching id replaces the incumbent only
when its `_version` is strictly higher. -/
def dedupStep (id : String) (acc : Option Record) (r : Record) : Option Record :=
  if r._id = id then
    match acc with
    | none => some r
    | some a => if r._version > a._version then some r else some a
  else acc

theorem loadLoop_lookup (gen : Nat → String) (id : String) :
    ∀ (dirs : List (String × Record)) (n : Nat) (acc : List (String × Record)),
    (∀ p ∈ dirs, p.2._id ≠ "") →
    lookupL ((loadLoop gen n dirs acc).2) id =
      (dirs.map Prod.snd).foldl (dedupStep id) (lookupL acc id)
  | [], _, _, _ => rfl
  | (d, monitor) :: rest, n, acc, hids => by
    have hid : monitor._id ≠ "" := hids (d, monitor) (by simp)
    have hrest : ∀ p ∈ rest, p.2._id ≠ "" := fun p hp => hids p (by simp [hp])
    unfold loadLoop
    simp only [if_pos hid]
    rcases hl : lookupL acc monitor._id with _ | prev
    · simp only [hl]
      rw [loadLoop_lookup gen id rest _ (acc ++ [(monitor._id, monitor)]) hrest]
      rw [List.map_cons, List.foldl_cons]
      congr 1
      rw [lookupL_append acc [(monitor._id, monitor)] id]
      by_cases hii : monitor._id = id
      · subst hii
        simp [hl, lookupL, dedupStep]
      · have hii' : ¬ (id = monitor._id) := fun hh => hii hh.symm
        rcases hacc : lookupL acc id with _ | v
        · simp [lookupL, hii, hii', dedupStep]
        · simp [lookupL, hii, hii', dedupStep, hacc]
    · simp only [hl]
      by_cases hv : monitor._version > prev._version
      · simp only [hv, if_true]
        rw [loadLoop_lookup gen id rest _ (setL acc monitor._id monitor) hrest]
        rw [List.map_cons, List.foldl_cons]
        congr 1
        by_cases hii : monitor._id = id
        · subst hii
          rw [lookupL_setL_self acc monitor._id monitor]
          simp [hl, dedupStep, hv]
        · have hii' : id ≠ monitor._id := fun hh => hii hh.symm
          rw [lookupL_setL_ne acc id monitor._id monitor hii']
          simp [dedupStep, hii]
      · simp only [hv, if_false]
        rw [loadLoop_lookup gen id rest _ acc hrest]
        rw [List.map_cons, List.foldl_cons]
        congr 1
        by_cases hii : monitor._id = id
        · subst hii
          simp [hl, dedupStep, hv]
        · simp [dedupStep, hii]

theorem loadLoop_no_confirm (gen : Nat → String) :
    ∀ (n : Nat) (dirs acc : List (String × Record)),
    ((loadLoop gen n dirs acc).1).all (fun e => !isConfirm e) = true
  | _, [], _ => rfl
  | n, (d, monitor) :: rest, acc => by
    unfold loadLoop
    rcases hl : lookupL acc (if monitor._id ≠ "" then monitor._id else "create" ++ gen n)
      with _ | prev
    · simp only [hl]
      exact loadLoop_no_confirm gen _ rest _
    · simp only [hl]
      by_cases hv : monitor._version > prev._version
      · simpa [hv, isConfirm] using loadLoop_no_confirm gen _ rest _
      · simpa [hv, isConfirm] using loadLoop_no_confirm gen _ rest _

/-- C3 counterexample: two on-disk entries share the id `"m"` with equal
versions 5; the claim says the later-enumerated entry wins the tie, but the
code keeps the earlier-enumerated entry (record named `"A"`) and removes the
later one (`"B"`) from disk. -/
theorem c3_counterexample :
    load_monitors (fun _ => "aaaaaaaaaa") none
        [("A", ⟨"m", 5, "A"⟩), ("B", ⟨"m", 5, "B"⟩)] =
      ([Event.removeLocal "B"], [("m", ⟨"m", 5, "A"⟩)]) ∧
    (⟨"m", 5, "A"⟩ : Record) ≠ (⟨"m", 5, "B"⟩ : Record) :=
  ⟨rfl, by decide⟩

/-- C3 (amended): on every load, entries resolving to the same identity are
de-duplicated with the strictly-higher `_version` kept and the loser removed
from disk without any confirmation; on a version tie the EARLIER-enumerated
entry is kept and the later-enumerated one is removed (first-write-wins by
enumeration order), not the later one. Formally, the loaded record for each
id is the enumeration-order fold of `dedupStep`, whose tie branch keeps the
incumbent, and the load emits no confirmation prompts. -/
theorem c3_dedup (gen : Nat → String) (dirs : List (String × Record)) (id : String)
    (hids : ∀ p ∈ dirs, p.2._id ≠ "") :
    lookupL (load_monitors gen none dirs).2 id =
      (dirs.map Prod.snd).foldl (dedupStep id) none ∧
    ((load_monitors gen none dirs).1).all (fun e => !isConfirm e) = true :=
  ⟨loadLoop_lookup gen id dirs 0 [] hids, loadLoop_no_confirm gen 0 dirs []⟩

theorem c3_witness :
    lookupL (load_monitors (fun _ => "aaaaaaaaaa") none
        [("A", ⟨"m", 4, "A"⟩), ("B", ⟨"m", 6, "B"⟩)]).2 "m" =
      ([(⟨"m", 4, "A"⟩ : Record), ⟨"m", 6, "B"⟩].foldl (dedupStep "m") none) ∧
    ((load_monitors (fun _ => "aaaaaaaaaa") none
        [("A", ⟨"m", 4, "A"⟩), ("B", ⟨"m", 6, "B"⟩)]).1).all (fun e => !isConfirm e) = true := by
  have h := c3_dedup (fun _ => "aaaaaaaaaa")
    [("A", ⟨"m", 4, "A"⟩), ("B", ⟨"m", 6, "B"⟩)] "m" (by
      intro p hp
      have hp2 : p = ("A", (⟨"m", 4, "A"⟩ : Record)) ∨ p = ("B", ⟨"m", 6, "B"⟩) := by
        simpa using hp
      rcases hp2 with h2 | h2 <;> (rw [h2]; decide))
  exact ⟨h.1, h.2⟩

theorem offer_loop_no_removeLocal (answers : String → Bool)
    (create : Record → String × Record) (remote_monitors : List (String × Record)) :
    ∀ (items disk : List (String × Record)),
    ((offer_loop answers create remote_monitors items disk).events).all
      (fun e => !isRemoveLocal e) = true
  | [], _ => rfl
  | (monitor_id, r) :: rest, disk => by
    unfold offer_loop
    rcases hl : lookupL remote_monitors monitor_id with _ | prev
    · simp only [hl]
      by_cases ha : answers monitor_id
      · simpa [ha, isRemoveLocal] using offer_loop_no_removeLocal answers create
          remote_monitors rest (setL disk (create r).2.name (create r).2)
      · simpa [ha, isRemoveLocal] using offer_loop_no_removeLocal answers create
          remote_monitors rest disk
    · simp only [hl]
      exact offer_loop_no_removeLocal answers create remote_monitors rest disk

theorem offer_loop_confirm_mem (answers : String → Bool)
    (create : Record → String × Record) (remote_monitors : List (String × Record)) :
    ∀ (items disk : List (String × Record)) (id : String) (r : Record),
    (id, r) ∈ items → lookupL remote_monitors id = none →
    Event.confirm id (answers id) ∈ (offer_loop answers create remote_monitors items disk).events
  | [], _, _, _, hmem, _ => by cases hmem
  | (monitor_id, r0) :: rest, disk, id, r, hmem, hnone => by
    unfold offer_loop
    rcases List.mem_cons.mp hmem with h1 | h1
    · injection h1 with h2 h3
      subst h2
      simp only [hnone]
      by_cases ha : answers id = true
      · simp [ha]
      · have haf : answers id = false := by
          cases hh : answers id
          · rfl
          · exact absurd hh ha
        simp [haf]
    · rcases hl : lookupL remote_monitors monitor_id with _ | prev
      · simp only [hl]
        by_cases ha : answers monitor_id
        · simp only [ha, if_true]
          have ih := offer_loop_confirm_mem answers create remote_monitors rest
            (setL disk (create r0).2.name (create r0).2) id r h1 hnone
          simp [ih]
        · simp only [ha, if_false]
          have ih := offer_loop_confirm_mem answers create remote_monitors rest disk id r h1 hnone
          simp [ih]
      · simp only [hl]
        exact offer_loop_confirm_mem answers create remote_monitors rest disk id r h1 hnone

/-- C2 counterexample: a local placeholder (empty `"_id"`, so a synthesized
`create…` identity) whose creation the operator declines is NOT discarded
from the local store: the offer stage leaves the on-disk layout untouched,
the next pass loads the same monitor from the unchanged layout, and its
offer stage prompts for its creation again. -/
theorem c2_counterexample :
    (offer_loop noAnswers createStub []
        (load_monitors (fun _ => "aaaaaaaaaa") none [("M2", ⟨"", 1, "M2"⟩)]).2
        [("M2", ⟨"", 1, "M2"⟩)]).events = [Event.confirm "createaaaaaaaaaa" false] ∧
    (offer_loop noAnswers createStub []
        (load_monitors (fun _ => "aaaaaaaaaa") none [("M2", ⟨"", 1, "M2"⟩)]).2
        [("M2", ⟨"", 1, "M2"⟩)]).disk = [("M2", ⟨"", 1, "M2"⟩)] ∧
    lookupL (load_monitors (fun _ => "aaaaaaaaaa") none [("M2", ⟨"", 1, "M2"⟩)]).2
      "createaaaaaaaaaa" = some ⟨"", 1, "M2"⟩ ∧
    (offer_loop noAnswers createStub []
        (load_monitors (fun _ => "aaaaaaaaaa") none
          (offer_loop noAnswers createStub []
            (load_monitors (fun _ => "aaaaaaaaaa") none [("M2", ⟨"", 1, "M2"⟩)]).2
            [("M2", ⟨"", 1, "M2"⟩)]).disk).2
        (offer_loop noAnswers createStub []
          (load_monitors (fun _ => "aaaaaaaaaa") none [("M2", ⟨"", 1, "M2"⟩)]).2
          [("M2", ⟨"", 1, "M2"⟩)]).disk).events =
      [Event.confirm "createaaaaaaaaaa" false] :=
  ⟨rfl, rfl, rfl, rfl⟩

/-- C2 (amended): when the operator declines the creation of a local-only
monitor, the id is only deleted from the in-memory mapping for the rest of
the pass — every skipped id is absent from the mapping the offer stage
returns — but the offer stage performs no local-store removal, so the
on-disk placeholder survives; and any identity loaded from disk that is
absent from the remote mapping is prompted for again by the offer stage of
a later pass over the unchanged layout. -/
theorem c2_decline_keeps_disk (answers : String → Bool) (create : Record → String × Record)
    (local_monitors remote_monitors disk : List (String × Record)) :
    (∀ id ∈ ((offer_stage answers create local_monitors remote_monitors disk).1).skipped,
      lookupL (offer_stage answers create local_monitors remote_monitors disk).2 id = none) ∧
    (((offer_stage answers create local_monitors remote_monitors disk).1).events).all
      (fun e => !isRemoveLocal e) = true ∧
    (∀ id r, (id, r) ∈ local_monitors → lookupL remote_monitors id = none →
      Event.confirm id (answers id) ∈
        ((offer_stage answers create local_monitors remote_monitors disk).1).events) :=
  ⟨fun id hmem => lookupL_foldl_eraseL _ local_monitors id hmem,
   offer_loop_no_removeLocal answers create remote_monitors local_monitors disk,
   fun id r hmem hnone =>
     offer_loop_confirm_mem answers create remote_monitors local_monitors disk id r hmem hnone⟩

theorem c2_witness :
    lookupL (offer_stage noAnswers createStub [("loc1", ⟨"loc1", 1, "L"⟩)] [] []).2
      "loc1" = none ∧
    Event.confirm "loc1" false ∈
      ((offer_stage noAnswers createStub [("loc1", ⟨"loc1", 1, "L"⟩)] [] []).1).events := by
  have h := c2_decline_keeps_disk noAnswers createStub [("loc1", ⟨"loc1", 1, "L"⟩)] [] []
  refine ⟨h.1 "loc1" ?_, ?_⟩
  · show "loc1" ∈ ["loc1"]
    simp
  · have h2 := h.2.2 "loc1" ⟨"loc1", 1, "L"⟩ (by simp) rfl
    simpa using h2

/-- C10: the path-safety predicate accepts the empty string, and a remote
monitor whose name is empty passes the whole remote-set integrity check
(no duplicate, no path-unsafety violation). -/
theorem c10_empty_name_passes :
    pathsafe "" = true ∧
    integrity_violation [("m1", ⟨"m1", 1, ""⟩)] [] = false :=
  ⟨rfl, rfl⟩

end MonitorManager
